import Mathlib

/-!
Shallow embedding of the two command-line tools of the repository
`grading_tools`:

* `moodle.py` — renames graded exam files to the Moodle naming convention
  and packs them into 100 MB zip batches (functions `search_file`, `main`);
* `prep.py`  — splits A3 landscape scans into A4 pages and renames them
  from a class roster (function `split_exam` and the module-level loop).

Machine-level details (the filesystem, PyPDF2 page objects, zip archives)
are modelled by explicit data: a directory listing is a `List String`, a
file size is a `ℕ` obtained from a size function, a PDF is a `List Box`,
and an output page is the index of its source page together with the crop
box it was given when added to the writer.  Python exceptions
(`IndexError`, `csv.Error`) are modelled with `Except String`.
-/

namespace GradingTools

/-! ### Embedding of the Python string primitives used by the sources

Python's `str.lower` / `str.upper` are embedded character-wise.  Lean's
`Char.toLower` / `Char.toUpper` only handle ASCII, so the Latin-1 accented
letters that occur in French rosters are added by an explicit table; on
every character the sources are applied to, the embedding agrees with
Python. -/

/-- Python `str.lower` on one character (ASCII plus Latin-1 accented letters). -/
def charLower (c : Char) : Char :=
  match c with
  | 'É' => 'é' | 'È' => 'è' | 'Ê' => 'ê' | 'Ë' => 'ë'
  | 'À' => 'à' | 'Â' => 'â' | 'Ä' => 'ä'
  | 'Ç' => 'ç' | 'Î' => 'î' | 'Ï' => 'ï'
  | 'Ô' => 'ô' | 'Ö' => 'ö' | 'Ù' => 'ù' | 'Û' => 'û' | 'Ü' => 'ü'
  | _ => c.toLower

/-- Python `str.upper` on one character (ASCII plus Latin-1 accented letters). -/
def charUpper (c : Char) : Char :=
  match c with
  | 'é' => 'É' | 'è' => 'È' | 'ê' => 'Ê' | 'ë' => 'Ë'
  | 'à' => 'À' | 'â' => 'Â' | 'ä' => 'Ä'
  | 'ç' => 'Ç' | 'î' => 'Î' | 'ï' => 'Ï'
  | 'ô' => 'Ô' | 'ö' => 'Ö' | 'ù' => 'Ù' | 'û' => 'Û' | 'ü' => 'Ü'
  | _ => c.toUpper

/-- Python `str.lower` on a string. -/
def pyLower (s : String) : String := ⟨s.data.map charLower⟩

/-- Python `str.upper` on a string. -/
def pyUpper (s : String) : String := ⟨s.data.map charUpper⟩

/-- Python `str.strip()` (no argument) on a character list: drop leading
and trailing whitespace. -/
def pyStripList (l : List Char) : List Char :=
  ((l.dropWhile Char.isWhitespace).reverse.dropWhile Char.isWhitespace).reverse

/-- Python `str.strip()` (no argument): trim surrounding whitespace. -/
def pyStrip (s : String) : String := ⟨pyStripList s.data⟩

/-- Python `s.startswith(pre)`. -/
def pyStartswith (s pre : String) : Bool := pre.data.isPrefixOf s.data

/-- Python `s.split(sep)` for a one-character separator, on character
lists: every occurrence of the separator cuts, empty pieces are kept, and
the empty string yields one empty piece. -/
def splitOnChar (sep : Char) : List Char → List (List Char)
  | [] => [[]]
  | c :: t =>
      let r := splitOnChar sep t
      if c = sep then [] :: r
      else
        match r with
        | [] => [[c]]
        | h :: t2 => (c :: h) :: t2

/-- Python `sep.join(pieces)` for a one-character separator, on character
lists. -/
def intercalateChar (sep : Char) : List (List Char) → List Char
  | [] => []
  | [x] => x
  | x :: y :: t => x ++ sep :: intercalateChar sep (y :: t)

/-- Python `sep.join(pieces)` for a one-character separator and string
pieces. -/
def pyJoin (sep : Char) (pieces : List String) : String :=
  ⟨intercalateChar sep (pieces.map String.data)⟩

/-- Python `sub in s`: substring containment test, on the character lists. -/
def pySubstrAux (sub : List Char) : List Char → Bool
  | [] => sub.isPrefixOf []
  | c :: t => sub.isPrefixOf (c :: t) || pySubstrAux sub t

/-- Python `sub in s` for strings. -/
def pySubstr (sub s : String) : Bool := pySubstrAux sub.data s.data

/-! ### moodle.py -/

/-- `MAX_BATCH_SIZE_MB = 100` (moodle.py line 38). -/
def MAX_BATCH_SIZE_MB : ℕ := 100

/-- `MAX_BATCH_SIZE_BYTES = MAX_BATCH_SIZE_MB * 1024 * 1024` (moodle.py line 39). -/
def MAX_BATCH_SIZE_BYTES : ℕ := MAX_BATCH_SIZE_MB * 1024 * 1024

/-- `search_file` (moodle.py lines 56-62): lower-case and strip the search
term, then scan `file_list` in order and return the first entry whose
lower-cased name starts with the term; `None` if no entry matches. -/
def search_file (starting_string : String) (file_list : List String) :
    Option String :=
  let search_term := pyStrip (pyLower starting_string)
  match file_list with
  | [] => none
  | f :: rest =>
      if pyStartswith (pyLower f) search_term then some f
      else search_file starting_string rest

/-- The file index of `main` (moodle.py line 75): the directory entries,
hidden files (leading dot) excluded, sorted lexicographically.  Python's
`sorted` is a stable sort, embedded by insertion sort. -/
def fileIndex (entries : List String) : List String :=
  List.insertionSort (· ≤ ·) (entries.filter (fun f => !(pyStartswith f ".")))

/-- One roster row as seen by `main`: the raw name field and the raw
identifier field of the CSV row. -/
structure Row where
  name_field : String
  id_field : String
  deriving Repr, DecidableEq

/-- `"".join(re.findall(r'\d+', s))` (moodle.py line 113): all digit
characters of `s`, concatenated in order. -/
def digitsOf (s : String) : String := ⟨s.data.filter Char.isDigit⟩

/-- `full_name = row[name_col].strip()` (moodle.py line 114). -/
def full_name_of (row : Row) : String := pyStrip row.name_field

/-- `last_name = full_name.split(" ")[0].replace('"', '')` (moodle.py
line 115): the first space-delimited token of the stripped name, double
quotes removed. -/
def last_name_of (row : Row) : String :=
  ⟨((splitOnChar ' ' (full_name_of row).data).headI).filter (fun c => c ≠ '"')⟩

/-- The Moodle-compliant destination filename (moodle.py line 135). -/
def moodle_filename (full_name moodle_number original_filename : String) :
    String :=
  full_name ++ "_" ++ moodle_number ++ "_assignsubmission_file_" ++
    original_filename

/-- The environment `main`'s loop runs in: the file index of the source
directory and the byte size of each file. -/
structure MoodleEnv where
  files : List String
  size : String → ℕ

/-- The mutable state of `main`'s loop (moodle.py lines 77-82), together
with the observable contents of the destination directories:
`done_batches` records, for each already-zipped batch, the byte sizes of
the files copied into it; `current_files` records the (size, destination
filename) pairs copied into the current batch directory. -/
structure BatchState where
  batch_number : ℕ
  current_batch_size : ℕ
  file_counter : ℕ
  done_batches : List (List ℕ)
  current_files : List (ℕ × String)
  deriving Repr, DecidableEq

/-- The initial state (moodle.py lines 77-82): batch 1, empty. -/
def initState : BatchState :=
  { batch_number := 1, current_batch_size := 0, file_counter := 0,
    done_batches := [], current_files := [] }

/-- Zipping the full batch and opening the next one (moodle.py lines
125-132): the current directory's file sizes are archived, the batch
number is incremented, the accumulator reset, a fresh directory opened. -/
def stepRotate (st : BatchState) : BatchState :=
  { batch_number := st.batch_number + 1
    current_batch_size := 0
    file_counter := st.file_counter
    done_batches := st.done_batches ++ [st.current_files.map Prod.fst]
    current_files := [] }

/-- Copying one file into the current batch directory (moodle.py lines
134-139): record the destination filename, add the size to the
accumulator, count the file. -/
def stepPlace (st : BatchState) (file_size : ℕ) (dest : String) :
    BatchState :=
  { st with
    current_batch_size := st.current_batch_size + file_size
    file_counter := st.file_counter + 1
    current_files := st.current_files ++ [(file_size, dest)] }

/-- The body of `main`'s row loop (moodle.py lines 109-141): skip rows with
an empty name field; otherwise match the surname against the file index;
on a match, zip the current batch and open a new one if the file would push
it over `MAX_BATCH_SIZE_BYTES` (the check precedes the copy), then copy
the file under the synthesized Moodle filename; on no match, report and
leave the state alone. -/
def step (env : MoodleEnv) (st : BatchState) (row : Row) : BatchState :=
  if row.name_field = "" then st
  else
    match search_file (last_name_of row) env.files with
    | none => st
    | some original_filename =>
        stepPlace
          (if MAX_BATCH_SIZE_BYTES <
              st.current_batch_size + env.size original_filename then
            stepRotate st
          else st)
          (env.size original_filename)
          (moodle_filename (full_name_of row) (digitsOf row.id_field)
            original_filename)

/-- `main`'s loop over all roster rows. -/
def runRows (env : MoodleEnv) (rows : List Row) : BatchState :=
  rows.foldl (step env) initState

/-- All batches produced by a run, as lists of file byte sizes: the zipped
batches, plus the final batch when its directory is non-empty
(moodle.py lines 143-146). -/
def allBatches (env : MoodleEnv) (rows : List Row) : List (List ℕ) :=
  let final := runRows env rows
  final.done_batches ++
    (if final.current_files = [] then [] else [final.current_files.map Prod.fst])

/-! ### moodle.py — main's control flow (error handling) -/

/-- How a run of moodle.py's `main` ends.  Every constructor is a normal
return from the function — nothing propagates to the caller — carrying
what was printed: a missing-path message (lines 70-72), the generic
message of the top-level `except Exception` handler (lines 152-153), the
missing-name-column message together with the headers (lines 105-107), or
the success summary (lines 148-150). -/
inductive MainResult where
  | missingPath (source csv_file : String)
  | criticalError (msg : String)
  | noNameColumn (headers : List String)
  | success (files_processed zips_created : ℕ)
  deriving Repr, DecidableEq

/-- Whether the printed outcome includes the available CSV headers. -/
def MainResult.reportsHeaders : MainResult → Bool
  | .noNameColumn _ => true
  | _ => false

/-- Whether the outcome is a soft failure or a normal end: `main` printed
and returned, raising nothing.  In this model every outcome is soft —
the top-level handler catches every exception. -/
def MainResult.isSoft : MainResult → Bool
  | _ => true

/-- The inputs `main` depends on: whether the two paths exist, the
delimiter flag, what `csv.Sniffer().sniff` would yield on the file's
sample (`none` models the `csv.Error` it raises when it cannot decide),
the header row, the parsed data rows, the directory entries and the
file sizes. -/
structure MainEnv where
  source_exists : Bool
  csv_exists : Bool
  delimiter_arg : Option String
  sniff_result : Option String
  headers : List String
  rows : List Row
  entries : List String
  size : String → ℕ

/-- The header aliases accepted for the name column (moodle.py line 102). -/
def nameAliases : List String := ["nom complet", "full name", "name"]

/-- Delimiter resolution (moodle.py lines 90-96): the `-t` flag when
given, otherwise whatever the sniffer detects — `none` when the sniffer
raises. -/
def resolvedDelimiter (env : MainEnv) : Option String :=
  match env.delimiter_arg with
  | some d => some d
  | none => env.sniff_result

/-- moodle.py's `main` (lines 64-153) as a function of its environment.
Path checks come first; inside the `try`, the delimiter is the flag or the
sniffer's answer (a sniffer failure is caught by the generic handler);
then the name column is looked up among the headers and, when absent, the
headers are reported; otherwise the row loop runs and the summary is
printed. -/
def moodle_main (env : MainEnv) : MainResult :=
  if !env.source_exists || !env.csv_exists then
    .missingPath "source" "csv"
  else
    match resolvedDelimiter env with
    | none => .criticalError "Could not determine delimiter"
    | some _ =>
        match env.headers.find? (fun h => nameAliases.contains (pyLower h)) with
        | none => .noNameColumn env.headers
        | some _ =>
            let final := runRows ⟨fileIndex env.entries, env.size⟩ env.rows
            .success final.file_counter final.batch_number

/-! ### prep.py -/

/-- The NFD decomposition of one character, as `unicodedata.normalize('NFD', ·)`
produces it, on ASCII and on the Latin-1 accented letters that occur in
French rosters (an unaccented character decomposes to itself). -/
def nfdChar (c : Char) : List Char :=
  match c with
  | 'é' => ['e', '́'] | 'è' => ['e', '̀'] | 'ê' => ['e', '̂']
  | 'ë' => ['e', '̈']
  | 'É' => ['E', '́'] | 'È' => ['E', '̀'] | 'Ê' => ['E', '̂']
  | 'Ë' => ['E', '̈']
  | 'à' => ['a', '̀'] | 'â' => ['a', '̂'] | 'ä' => ['a', '̈']
  | 'À' => ['A', '̀'] | 'Â' => ['A', '̂'] | 'Ä' => ['A', '̈']
  | 'ç' => ['c', '̧'] | 'Ç' => ['C', '̧']
  | 'î' => ['i', '̂'] | 'ï' => ['i', '̈']
  | 'Î' => ['I', '̂'] | 'Ï' => ['I', '̈']
  | 'ô' => ['o', '̂'] | 'ö' => ['o', '̈']
  | 'Ô' => ['O', '̂'] | 'Ö' => ['O', '̈']
  | 'ù' => ['u', '̀'] | 'û' => ['u', '̂'] | 'ü' => ['u', '̈']
  | 'Ù' => ['U', '̀'] | 'Û' => ['U', '̂'] | 'Ü' => ['U', '̈']
  | _ => [c]

/-- `unicodedata.category(c) == 'Mn'`: the combining diacritical marks
block U+0300-U+036F, which contains every mark `nfdChar` emits. -/
def isMn (c : Char) : Bool := 0x300 ≤ c.toNat && c.toNat ≤ 0x36F

/-- `strip_accents` (prep.py lines 13-15): NFD-normalize and drop the
combining marks. -/
def strip_accents (s : String) : String :=
  ⟨(s.data.flatMap nfdChar).filter (fun c => !(isMn c))⟩

/-- A PDF page's media box: lower-left and upper-right corners.
`split_exam` reads only `upper_right` for the page dimensions. -/
structure Box where
  llx : ℚ
  lly : ℚ
  urx : ℚ
  ury : ℚ
  deriving Repr, DecidableEq

/-- A page added to the `PdfWriter`: the index of its source page in the
reader together with the media box it carried when added (the crop). -/
structure OutPage where
  src : ℕ
  box : Box
  deriving Repr, DecidableEq

/-- The crop `(half_width, 0)-(width, height)`: the right half
(prep.py lines 46-47 and 56-57). -/
def rightHalf (width height : ℚ) : Box :=
  { llx := width / 2, lly := 0, urx := width, ury := height }

/-- The crop `(0, 0)-(half_width, height)`: the left half
(prep.py lines 51-52 and 61-62). -/
def leftHalf (width height : ℚ) : Box :=
  { llx := 0, lly := 0, urx := width / 2, ury := height }

/-- The pages written for the first `n` front/back pairs, in loop order
(prep.py lines 38-63): iteration `i` appends front-right, back-left,
back-right, front-left for the pair (page `2*i`, page `2*i+1`). -/
def splitPages (width height : ℚ) : ℕ → List OutPage
  | 0 => []
  | n + 1 =>
      splitPages width height n ++
        [ { src := 2 * n, box := rightHalf width height },
          { src := 2 * n + 1, box := leftHalf width height },
          { src := 2 * n + 1, box := rightHalf width height },
          { src := 2 * n, box := leftHalf width height } ]

/-- What `split_exam` did: returned `0` leaving the file alone, or
returned `1` after writing the listed pages to the output file. -/
inductive SplitResult where
  | notSplit
  | split (pages : List OutPage)
  deriving Repr, DecidableEq

/-- The integer `split_exam` returns for each outcome. -/
def SplitResult.retCode : SplitResult → ℕ
  | .notSplit => 0
  | .split _ => 1

/-- `split_exam` (prep.py lines 17-68).  A document is the list of its
pages' media boxes.  `reader.pages[1]` is read before any page-count
guard, so a document with fewer than two pages raises `IndexError`.
`width, height = first_page.mediabox.upper_right`; if `width < height`
the file is left alone and `0` returned; otherwise the loop runs for
`int(len(pages)/2)` pairs and the writer's pages go to the output file. -/
def split_exam (doc : List Box) : Except String SplitResult :=
  match doc.get? 1 with
  | none => .error "IndexError: sequence index out of range"
  | some first_page =>
      let width := first_page.urx
      let height := first_page.ury
      if width < height then .ok .notSplit
      else .ok (.split (splitPages width height (doc.length / 2)))

/-- What the caller leaves at the destination path for one source file
(prep.py lines 150-151): the split output, or a byte-identical copy of the
input when `split_exam` returned `0`. -/
inductive ProcResult where
  | copied (doc : List Box)
  | splitOut (pages : List OutPage)
  deriving Repr, DecidableEq

/-- `if not split_exam(src, dest): shutil.copyfile(src, dest)`
(prep.py lines 150-151); a `split_exam` exception propagates unhandled. -/
def prepProcess (doc : List Box) : Except String ProcResult :=
  match split_exam doc with
  | .error e => .error e
  | .ok .notSplit => .ok (.copied doc)
  | .ok (.split pages) => .ok (.splitOut pages)

/-- `last_name` for one roster row of prep.py (lines 139, 142): the
all-uppercase tokens of the name field, lower-cased, joined with `-`,
accents stripped. -/
def last_nameB (names : List String) : String :=
  strip_accents (pyJoin '-'
    (names.filterMap (fun w => if pyUpper w = w then some (pyLower w) else none)))

/-- `first_name` for one roster row of prep.py (lines 140, 143): the
remaining tokens, lower-cased, joined with `-`, accents stripped. -/
def first_nameB (names : List String) : String :=
  strip_accents (pyJoin '-'
    (names.filterMap (fun w => if pyUpper w = w then none else some (pyLower w))))

/-- `any(last_name in name for name in exclude)` (prep.py line 148):
note the containment runs in this direction — the row's surname as a
substring of the exclude entry. -/
def isExcluded (exclude : List String) (last_name : String) : Bool :=
  exclude.any (fun name => pySubstr last_name name)

/-- One processed (non-excluded) roster row of prep.py's main loop: the
row's position, the extracted names, and the source file it was paired
with (`files[file_counter]`, prep.py line 145). -/
structure WorkItem where
  row_index : ℕ
  last_name : String
  first_name : String
  file_index : ℕ
  file : String
  deriving Repr, DecidableEq

/-- `students_names = csv.split(";")[1].split(" ")` (prep.py line 137),
given the field at index 1. -/
def rowNames (name_field : List Char) : List String :=
  (splitOnChar ' ' name_field).map (fun l => (⟨l⟩ : String))

/-- prep.py's main loop (lines 135-155) over the roster lines, carrying
the row index `i` and `file_counter`.  For every row — excluded or not —
the name field is `line.split(";")[1]` and the source file
`files[file_counter]` is computed; either indexing raises `IndexError`.
Excluded rows are skipped without incrementing `file_counter`. -/
def prepLoop (files exclude : List String) :
    List String → ℕ → ℕ → Except String (List WorkItem)
  | [], _, _ => .ok []
  | line :: rest, i, file_counter =>
      match (splitOnChar ';' line.data).get? 1 with
      | none => .error "IndexError: list index out of range"
      | some name_field =>
          match files.get? file_counter with
          | none => .error "IndexError: list index out of range"
          | some srcFile =>
              if isExcluded exclude (last_nameB (rowNames name_field)) then
                prepLoop files exclude rest (i + 1) file_counter
              else
                match prepLoop files exclude rest (i + 1) (file_counter + 1) with
                | .error e => .error e
                | .ok items =>
                    .ok ({ row_index := i,
                           last_name := last_nameB (rowNames name_field),
                           first_name := first_nameB (rowNames name_field),
                           file_index := file_counter, file := srcFile } :: items)

/-- The roster lines as prep.py reads them (lines 125-127): header
dropped, each line stripped. -/
def prepContent (raw : List String) : List String :=
  (raw.drop 1).map pyStrip

/-- prep.py's whole run over a roster file's lines. -/
def prepRun (files exclude raw : List String) : Except String (List WorkItem) :=
  prepLoop files exclude (prepContent raw) 0 0

/-! ### Helper lemmas -/

/-- Unfolding `splitPages` into the per-pair form: pair `i` contributes its
four pages in the order front-right, back-left, back-right, front-left. -/
lemma splitPages_eq_flatMap (width height : ℚ) (n : ℕ) :
    splitPages width height n = (List.range n).flatMap (fun i =>
      [ { src := 2 * i, box := rightHalf width height },
        { src := 2 * i + 1, box := leftHalf width height },
        { src := 2 * i + 1, box := rightHalf width height },
        { src := 2 * i, box := leftHalf width height } ]) := by
  induction n with
  | zero => rfl
  | succ n ih =>
      rw [splitPages, ih, List.range_succ, List.flatMap_append,
        List.flatMap_cons, List.flatMap_nil, List.append_nil]

/-- `splitPages` emits exactly four pages per pair. -/
lemma splitPages_length (width height : ℚ) (n : ℕ) :
    (splitPages width height n).length = 4 * n := by
  induction n with
  | zero => rfl
  | succ n ih => rw [splitPages, List.length_append, ih]; simp; ring

/-- `split_exam` through the orientation check, once the page at index 1
is known. -/
lemma split_exam_of_get (doc : List Box) (fp : Box)
    (hfp : doc.get? 1 = some fp) :
    split_exam doc =
      if fp.urx < fp.ury then .ok .notSplit
      else .ok (.split (splitPages fp.urx fp.ury (doc.length / 2))) := by
  unfold split_exam
  rw [hfp]

/-- Every page `splitPages` emits comes from a source page of index below
`2 * n`. -/
lemma splitPages_src_lt (width height : ℚ) (n : ℕ) :
    ∀ p ∈ splitPages width height n, p.src < 2 * n := by
  induction n with
  | zero => intro p hp; simp [splitPages] at hp
  | succ n ih =>
      intro p hp
      rw [splitPages, List.mem_append] at hp
      rcases hp with hp | hp
      · exact lt_trans (ih p hp) (by omega)
      · simp only [List.mem_cons, List.not_mem_nil, or_false] at hp
        rcases hp with h | h | h | h <;> subst h <;> simp <;> omega

end GradingTools

namespace GradingTools

/-! ### Claims about moodle.py -/

/-- Claim C1 — for every roster row whose surname matches a file, the
destination filename written by the batch tool is exactly the stripped
display name, `_`, the identifier (all digit characters of the id field in
order), the literal `_assignsubmission_file_`, and the original
filename. -/
theorem c1_dest_filename (env : MoodleEnv) (st : BatchState) (row : Row)
    (orig : String) (hname : row.name_field ≠ "")
    (hmatch : search_file (last_name_of row) env.files = some orig) :
    ((step env st row).current_files).getLast? =
      some (env.size orig,
        pyStrip row.name_field ++ "_" ++ digitsOf row.id_field ++
          "_assignsubmission_file_" ++ orig) := by
  unfold step
  rw [if_neg hname, hmatch]
  by_cases hover :
      MAX_BATCH_SIZE_BYTES < st.current_batch_size + env.size orig
  · simp [hover, stepPlace, stepRotate, moodle_filename, full_name_of,
      List.getLast?_concat]
  · simp [hover, stepPlace, stepRotate, moodle_filename, full_name_of,
      List.getLast?_concat]

/-- Witness for C1 on a concrete row and directory. -/
theorem c1_dest_filename_witness :
    ((step ⟨["Martin_scan.pdf"], fun _ => 5⟩ initState
        ⟨"MARTIN Jean", "id123"⟩).current_files).getLast? =
      some (5, "MARTIN Jean_123_assignsubmission_file_Martin_scan.pdf") :=
  c1_dest_filename ⟨["Martin_scan.pdf"], fun _ => 5⟩ initState
    ⟨"MARTIN Jean", "id123"⟩ "Martin_scan.pdf" (by decide) rfl

/-- Claim C8 — a roster row with no matching file is only reported: the
loop state (batch number, accumulated size, file counter, batch
directories) after the row equals the state before it. -/
theorem c8_unmatched_row_frame (env : MoodleEnv) (st : BatchState) (row : Row)
    (hname : row.name_field ≠ "")
    (hmiss : search_file (last_name_of row) env.files = none) :
    step env st row = st := by
  unfold step
  rw [if_neg hname, hmiss]

/-- Witness for C8 on a concrete unmatched row. -/
theorem c8_unmatched_row_frame_witness :
    step ⟨["Dupont_scan.pdf"], fun _ => 7⟩ initState ⟨"MARTIN Jean", "123"⟩ =
      initState :=
  c8_unmatched_row_frame ⟨["Dupont_scan.pdf"], fun _ => 7⟩ initState
    ⟨"MARTIN Jean", "123"⟩ (by decide) rfl

/-! ### Claims about prep.py -/

/-- Claim C10 — `split_exam` reads the page at index 1 before any
page-count guard, so on a document with fewer than two pages it raises
`IndexError`, which propagates through the caller unhandled, instead of
returning 0 or 1. -/
theorem c10_short_doc_index_error (doc : List Box) (h : doc.length < 2) :
    split_exam doc = .error "IndexError: sequence index out of range" ∧
    prepProcess doc = .error "IndexError: sequence index out of range" := by
  have hget : doc.get? 1 = none := by
    rw [List.get?_eq_none]
    omega
  constructor
  · unfold split_exam
    rw [hget]
  · unfold prepProcess split_exam
    rw [hget]

/-- Witness for C10 on a concrete one-page document. -/
theorem c10_short_doc_index_error_witness :
    split_exam [⟨0, 0, 4, 2⟩] =
      .error "IndexError: sequence index out of range" ∧
    prepProcess [⟨0, 0, 4, 2⟩] =
      .error "IndexError: sequence index out of range" :=
  c10_short_doc_index_error [⟨0, 0, 4, 2⟩] (by decide)

/-- Claim C3 — when the orientation-check page (index 1) is landscape
(width ≥ height), `split_exam` emits, per front/back pair (pages `2i`,
`2i+1`), exactly the four pages front-right, back-left, back-right,
front-left, cropped at the horizontal midpoint; when it is portrait
(width < height), nothing is written, the result is the zero/falsy
`notSplit`, and the caller leaves a byte-identical copy of the input. -/
theorem c3_split_order_and_portrait_copy (doc : List Box) (fp : Box)
    (hfp : doc.get? 1 = some fp) :
    (fp.ury ≤ fp.urx →
      split_exam doc = .ok (.split ((List.range (doc.length / 2)).flatMap
        (fun i =>
          [ { src := 2 * i, box := rightHalf fp.urx fp.ury },
            { src := 2 * i + 1, box := leftHalf fp.urx fp.ury },
            { src := 2 * i + 1, box := rightHalf fp.urx fp.ury },
            { src := 2 * i, box := leftHalf fp.urx fp.ury } ])))) ∧
    (fp.urx < fp.ury →
      split_exam doc = .ok .notSplit ∧
      SplitResult.notSplit.retCode = 0 ∧
      prepProcess doc = .ok (.copied doc)) := by
  constructor
  · intro hland
    rw [split_exam_of_get doc fp hfp, if_neg (not_lt.mpr hland),
      splitPages_eq_flatMap]
  · intro hport
    have hsp : split_exam doc = .ok .notSplit := by
      rw [split_exam_of_get doc fp hfp, if_pos hport]
    refine ⟨hsp, rfl, ?_⟩
    unfold prepProcess
    rw [hsp]

/-- Witness for C3: a two-page landscape document splits into the four
pages in order, and a two-page portrait one is copied unchanged. -/
theorem c3_split_order_and_portrait_copy_witness :
    (split_exam [⟨0, 0, 4, 2⟩, ⟨0, 0, 4, 2⟩] = .ok (.split
      [ { src := 0, box := rightHalf 4 2 },
        { src := 1, box := leftHalf 4 2 },
        { src := 1, box := rightHalf 4 2 },
        { src := 0, box := leftHalf 4 2 } ])) ∧
    (split_exam [⟨0, 0, 2, 4⟩, ⟨0, 0, 2, 4⟩] = .ok .notSplit ∧
      SplitResult.notSplit.retCode = 0 ∧
      prepProcess [⟨0, 0, 2, 4⟩, ⟨0, 0, 2, 4⟩] =
        .ok (.copied [⟨0, 0, 2, 4⟩, ⟨0, 0, 2, 4⟩])) := by
  constructor
  · exact (c3_split_order_and_portrait_copy
      [⟨0, 0, 4, 2⟩, ⟨0, 0, 4, 2⟩] ⟨0, 0, 4, 2⟩ rfl).1 (by norm_num)
  · exact (c3_split_order_and_portrait_copy
      [⟨0, 0, 2, 4⟩, ⟨0, 0, 2, 4⟩] ⟨0, 0, 2, 4⟩ rfl).2 (by norm_num)

/-- Claim C5 — on a landscape document with an odd page count, only the
`n / 2` complete front/back pairs are processed: the output has
`4 * (n / 2)` pages and the unpaired trailing page (index `n - 1`)
contributes to none of them. -/
theorem c5_odd_trailing_page_dropped (doc : List Box) (fp : Box)
    (hfp : doc.get? 1 = some fp) (hland : fp.ury ≤ fp.urx)
    (hodd : doc.length % 2 = 1) :
    ∃ out, split_exam doc = .ok (.split out) ∧
      out.length = 4 * (doc.length / 2) ∧
      ∀ p ∈ out, p.src < doc.length - 1 := by
  refine ⟨splitPages fp.urx fp.ury (doc.length / 2), ?_, ?_, ?_⟩
  · rw [split_exam_of_get doc fp hfp, if_neg (not_lt.mpr hland)]
  · exact splitPages_length fp.urx fp.ury (doc.length / 2)
  · intro p hp
    have := splitPages_src_lt fp.urx fp.ury (doc.length / 2) p hp
    omega

/-- Witness for C5 on a concrete three-page landscape document. -/
theorem c5_odd_trailing_page_dropped_witness :
    ∃ out,
      split_exam [⟨0, 0, 4, 2⟩, ⟨0, 0, 4, 2⟩, ⟨0, 0, 4, 2⟩] =
        .ok (.split out) ∧
      out.length = 4 * (([⟨0, 0, 4, 2⟩, ⟨0, 0, 4, 2⟩,
        (⟨0, 0, 4, 2⟩ : Box)] : List Box).length / 2) ∧
      ∀ p ∈ out, p.src <
        ([⟨0, 0, 4, 2⟩, ⟨0, 0, 4, 2⟩, (⟨0, 0, 4, 2⟩ : Box)] : List Box).length - 1 :=
  c5_odd_trailing_page_dropped
    [⟨0, 0, 4, 2⟩, ⟨0, 0, 4, 2⟩, ⟨0, 0, 4, 2⟩] ⟨0, 0, 4, 2⟩
    rfl (by norm_num) (by decide)

/-- A batch (its files' byte sizes) as the capacity claim describes it:
its total exceeds the cap by at most its first file's size, and a batch
over the cap holds exactly one file — the one whose arrival triggered the
overflow. -/
def goodBatch (b : List ℕ) : Prop :=
  b.sum ≤ MAX_BATCH_SIZE_BYTES + b.headI ∧
    (MAX_BATCH_SIZE_BYTES < b.sum → ∃ s, b = [s])

/-- The loop invariant of `main`'s batching: the accumulator equals the
size of the current directory's contents; the current directory is within
the cap or holds a single file; every zipped batch was good. -/
def BatchInv (st : BatchState) : Prop :=
  st.current_batch_size = (st.current_files.map Prod.fst).sum ∧
  (st.current_batch_size ≤ MAX_BATCH_SIZE_BYTES ∨
    ∃ p, st.current_files = [p]) ∧
  ∀ b ∈ st.done_batches, goodBatch b

/-- Under the invariant, the current directory's contents form a good
batch. -/
lemma goodBatch_current (st : BatchState) (h : BatchInv st) :
    goodBatch (st.current_files.map Prod.fst) := by
  obtain ⟨h1, h2, _⟩ := h
  rcases h2 with hle | ⟨p, hp⟩
  · refine ⟨?_, ?_⟩
    · rw [← h1]
      exact le_trans hle (Nat.le_add_right _ _)
    · intro hlt
      rw [← h1] at hlt
      omega
  · rw [hp]
    exact ⟨by simp, fun _ => ⟨p.1, by simp⟩⟩

/-- `step` preserves the batching invariant. -/
lemma batchInv_step (env : MoodleEnv) (st : BatchState) (row : Row)
    (h : BatchInv st) : BatchInv (step env st row) := by
  unfold step
  by_cases hname : row.name_field = ""
  · rw [if_pos hname]; exact h
  rw [if_neg hname]
  cases hm : search_file (last_name_of row) env.files with
  | none => exact h
  | some orig =>
      show BatchInv (stepPlace
        (if MAX_BATCH_SIZE_BYTES < st.current_batch_size + env.size orig then
          stepRotate st
        else st) (env.size orig)
        (moodle_filename (full_name_of row) (digitsOf row.id_field) orig))
      by_cases hover :
          MAX_BATCH_SIZE_BYTES < st.current_batch_size + env.size orig
      · rw [if_pos hover]
        obtain ⟨h1, h2, h3⟩ := h
        refine ⟨by simp [stepPlace, stepRotate], ?_, ?_⟩
        · exact Or.inr ⟨(env.size orig,
            moodle_filename (full_name_of row) (digitsOf row.id_field) orig),
            by simp [stepPlace, stepRotate]⟩
        · intro b hb
          simp only [stepPlace, stepRotate, List.mem_append,
            List.mem_singleton] at hb
          rcases hb with hb | hb
          · exact h3 b hb
          · subst hb
            exact goodBatch_current st ⟨h1, h2, h3⟩
      · rw [if_neg hover]
        obtain ⟨h1, h2, h3⟩ := h
        refine ⟨?_, Or.inl ?_, h3⟩
        · simp [stepPlace, h1]
        · show st.current_batch_size + env.size orig ≤ MAX_BATCH_SIZE_BYTES
          omega

/-- The invariant holds after folding `step` over any row list from any
invariant state. -/
lemma batchInv_foldl (env : MoodleEnv) (rows : List Row) :
    ∀ st : BatchState, BatchInv st → BatchInv (rows.foldl (step env) st) := by
  induction rows with
  | nil => intro st h; exact h
  | cons row rest ih =>
      intro st h
      exact ih (step env st row) (batchInv_step env st row h)

/-- Claim C2 — every batch the run produces (zipped batches and the final
one) respects the capacity up to one file: its size sum exceeds
`MAX_BATCH_SIZE_BYTES` by at most the size of its first file, and a batch
over the cap consists of exactly the single file that triggered the
overflow (the check runs before the copy, so that file opened a new
batch). -/
theorem c2_batch_capacity (env : MoodleEnv) (rows : List Row) (b : List ℕ)
    (hb : b ∈ allBatches env rows) :
    b.sum ≤ MAX_BATCH_SIZE_BYTES + b.headI ∧
      (MAX_BATCH_SIZE_BYTES < b.sum → ∃ s, b = [s]) := by
  have hinv : BatchInv (runRows env rows) :=
    batchInv_foldl env rows initState ⟨rfl, Or.inl (by simp [initState]), by simp [initState]⟩
  unfold allBatches at hb
  rw [List.mem_append] at hb
  rcases hb with hb | hb
  · exact hinv.2.2 b hb
  · by_cases hemp : (runRows env rows).current_files = []
    · rw [if_pos hemp] at hb
      simp at hb
    · rw [if_neg hemp, List.mem_singleton] at hb
      subst hb
      exact goodBatch_current _ hinv

/-- Witness for C2 on a concrete run producing one batch. -/
theorem c2_batch_capacity_witness :
    ([5] : List ℕ).sum ≤ MAX_BATCH_SIZE_BYTES + ([5] : List ℕ).headI ∧
      (MAX_BATCH_SIZE_BYTES < ([5] : List ℕ).sum → ∃ s, ([5] : List ℕ) = [s]) :=
  c2_batch_capacity ⟨["Martin_scan.pdf"], fun _ => 5⟩
    [⟨"MARTIN Jean", "123"⟩] [5] (by decide)

/-- Claim C4 — matching scans the lexicographically sorted,
hidden-file-excluded directory listing and returns the first (hence at
most one) entry whose lower-cased name starts with the lower-cased,
trimmed surname; strict prefix matching is the only mechanism. -/
theorem c4_first_prefix_match :
    (∀ (s : String) (files : List String),
        search_file s files =
          files.find?
            (fun f => pyStartswith (pyLower f) (pyStrip (pyLower s)))) ∧
    (∀ entries : List String, List.Sorted (· ≤ ·) (fileIndex entries)) ∧
    (∀ entries : List String,
        (fileIndex entries).all (fun f => !(pyStartswith f ".")) = true) ∧
    (∀ (entries : List String) (f : String),
        f ∈ fileIndex entries ↔ f ∈ entries ∧ pyStartswith f "." = false) := by
  refine ⟨?_, ?_, ?_, ?_⟩
  · intro s files
    induction files with
    | nil => rfl
    | cons f rest ih =>
        rw [search_file]
        cases hc : pyStartswith (pyLower f) (pyStrip (pyLower s)) with
        | true => simp [hc, List.find?]
        | false => simp [hc, List.find?, ih]
  · intro entries
    exact List.sorted_insertionSort _ _
  · intro entries
    rw [List.all_eq_true]
    intro f hf
    have hmem : f ∈ (entries.filter (fun g => !(pyStartswith g "."))) :=
      (List.perm_insertionSort _ _).subset hf
    exact (List.mem_filter.mp hmem).2
  · intro entries f
    unfold fileIndex
    rw [(List.perm_insertionSort _ _).mem_iff, List.mem_filter,
      Bool.not_eq_true']

/-- Pulling an `if …  then some _ else none` filterMap apart into filter
and map. -/
lemma filterMap_ite_some (P : α → Prop) [DecidablePred P] (g : α → β)
    (l : List α) :
    l.filterMap (fun w => if P w then some (g w) else none) =
      (l.filter (fun w => decide (P w))).map g := by
  induction l with
  | nil => rfl
  | cons a t ih =>
      by_cases h : P a
      · simp [List.filterMap_cons, List.filter_cons, h, ih]
      · simp [List.filterMap_cons, List.filter_cons, h, ih]

/-- The complementary case: keep the elements where the test fails. -/
lemma filterMap_ite_none (P : α → Prop) [DecidablePred P] (g : α → β)
    (l : List α) :
    l.filterMap (fun w => if P w then none else some (g w)) =
      (l.filter (fun w => !(decide (P w)))).map g := by
  induction l with
  | nil => rfl
  | cons a t ih =>
      by_cases h : P a
      · simp [List.filterMap_cons, List.filter_cons, h, ih]
      · simp [List.filterMap_cons, List.filter_cons, h, ih]

/-- Claim C6 — format-B extraction partitions the name's tokens into the
all-uppercase ones (joined with `-`, lower-cased: the surname) and the
rest (the first name), both accent-stripped; `["MARTIN", "Jean", "Paul"]`
gives surname `martin` and first name `jean-paul`, and the accented
letter É comes out as `e` (the tokens are lower-cased before the accents
are stripped). -/
theorem c6_format_b_extraction :
    (∀ names : List String,
        last_nameB names = strip_accents (pyJoin '-'
          ((names.filter (fun w => pyUpper w = w)).map pyLower)) ∧
        first_nameB names = strip_accents (pyJoin '-'
          ((names.filter (fun w => !(decide (pyUpper w = w)))).map pyLower))) ∧
    last_nameB ["MARTIN", "Jean", "Paul"] = "martin" ∧
    first_nameB ["MARTIN", "Jean", "Paul"] = "jean-paul" ∧
    last_nameB ["ÉMILE"] = "emile" ∧
    strip_accents (pyLower "É") = "e" := by
  refine ⟨?_, by decide, by decide, by decide, by decide⟩
  intro names
  constructor
  · rw [last_nameB, filterMap_ite_some]
  · rw [first_nameB, filterMap_ite_none]

/-- In a successful run of prep.py's loop started at `file_counter = fc`,
the `n`-th produced work item carries file index `fc + n` and the listing
entry at that index. -/
lemma prepLoop_positional (files exclude : List String) :
    ∀ (lines : List String) (i fc : ℕ) (items : List WorkItem),
      prepLoop files exclude lines i fc = .ok items →
      ∀ n (hn : n < items.length),
        (items.get ⟨n, hn⟩).file_index = fc + n ∧
        files.get? (fc + n) = some ((items.get ⟨n, hn⟩).file) := by
  intro lines
  induction lines with
  | nil =>
      intro i fc items h n hn
      rw [prepLoop] at h
      injection h with h2
      subst h2
      exact absurd hn (by simp)
  | cons line rest ih =>
      intro i fc items h n hn
      rw [prepLoop] at h
      cases hf : (splitOnChar ';' line.data).get? 1 with
      | none =>
          simp only [hf] at h
          cases h
      | some name_field =>
          simp only [hf] at h
          cases hg : files.get? fc with
          | none =>
              simp only [hg] at h
              cases h
          | some srcFile =>
              simp only [hg] at h
              by_cases hex :
                  isExcluded exclude (last_nameB (rowNames name_field)) = true
              · rw [if_pos hex] at h
                exact ih (i + 1) fc items h n hn
              · rw [if_neg hex] at h
                cases hr : prepLoop files exclude rest (i + 1) (fc + 1) with
                | error e =>
                    simp only [hr] at h
                    cases h
                | ok tailItems =>
                    simp only [hr] at h
                    have hitems : items =
                        { row_index := i,
                          last_name := last_nameB (rowNames name_field),
                          first_name := first_nameB (rowNames name_field),
                          file_index := fc, file := srcFile } :: tailItems := by
                      injection h with h2
                      exact h2.symm
                    subst hitems
                    cases n with
                    | zero => exact ⟨rfl, by simpa using hg⟩
                    | succ m =>
                        have hm : m < tailItems.length := by
                          simpa using hn
                        have := ih (i + 1) (fc + 1) tailItems hr m hm
                        constructor
                        · show (tailItems.get ⟨m, hm⟩).file_index = fc + (m + 1)
                          rw [this.1]
                          omega
                        · show files.get? (fc + (m + 1)) =
                            some ((tailItems.get ⟨m, hm⟩).file)
                          have heq : fc + (m + 1) = fc + 1 + m := by omega
                          rw [heq]
                          exact this.2

/-- Claim C9 — the splitter pairs roster rows with source files
positionally, not by name: in a successful run, the `n`-th non-excluded
roster row gets the `n`-th entry of the sorted, hidden-file-excluded
listing; excluded rows consume no entry, and the extracted surname plays
no role in which file is selected (the index is the count of prior
non-excluded rows). -/
theorem c9_positional_file_selection (files exclude raw : List String)
    (items : List WorkItem) (h : prepRun files exclude raw = .ok items)
    (n : ℕ) (hn : n < items.length) :
    (items.get ⟨n, hn⟩).file_index = n ∧
    files.get? n = some ((items.get ⟨n, hn⟩).file) := by
  have := prepLoop_positional files exclude (prepContent raw) 0 0 items h n hn
  simpa using this

/-- Witness for C9 on a concrete roster with one excluded row: the second
non-excluded row gets the second file even though a row was skipped
between them. -/
theorem c9_positional_file_selection_witness :
    (([⟨0, "martin", "jean", 0, "a.pdf"⟩,
       ⟨2, "richard", "anne", 1, "b.pdf"⟩] :
        List WorkItem).get ⟨1, by decide⟩).file_index = 1 ∧
    (["a.pdf", "b.pdf", "c.pdf"] : List String).get? 1 =
      some ((([⟨0, "martin", "jean", 0, "a.pdf"⟩,
        ⟨2, "richard", "anne", 1, "b.pdf"⟩] :
          List WorkItem).get ⟨1, by decide⟩).file) :=
  c9_positional_file_selection ["a.pdf", "b.pdf", "c.pdf"] ["dupont"]
    ["header", "1;MARTIN Jean;x", "2;DUPONT Marie;y", "3;RICHARD Anne;z"]
    [⟨0, "martin", "jean", 0, "a.pdf"⟩, ⟨2, "richard", "anne", 1, "b.pdf"⟩]
    rfl 1 (by decide)

/-- An environment where both paths exist but neither a delimiter flag nor
a sniffer answer is available: `csv.Sniffer().sniff` raises, the headers
(never reached) notwithstanding. -/
def sniffFailEnv : MainEnv :=
  { source_exists := true, csv_exists := true, delimiter_arg := none,
    sniff_result := none, headers := ["col_a", "col_b"], rows := [],
    entries := [], size := fun _ => 0 }

/-- Counterexample to claim C7 as stated: when the delimiter cannot be
resolved, `main` ends in the generic top-level handler, whose message does
NOT include the available headers — the headers are only reported on the
missing-name-column path, which is never reached here. -/
theorem c7_counterexample_delimiter_no_headers :
    moodle_main sniffFailEnv = .criticalError "Could not determine delimiter" ∧
    (moodle_main sniffFailEnv).reportsHeaders = false :=
  ⟨rfl, rfl⟩

/-- Claim C7 (amended) — the batch tool fails softly when the source
directory or roster file is missing; an unresolvable delimiter is caught
by the generic top-level handler and reported without the headers, still
softly; only a missing name column is reported together with the
available headers; every outcome is a soft return. -/
theorem c7_soft_failure_modes (env : MainEnv) :
    (env.source_exists = false ∨ env.csv_exists = false →
        moodle_main env = .missingPath "source" "csv") ∧
    (env.source_exists = true → env.csv_exists = true →
        resolvedDelimiter env = none →
        moodle_main env = .criticalError "Could not determine delimiter" ∧
        (moodle_main env).reportsHeaders = false) ∧
    (∀ d, env.source_exists = true → env.csv_exists = true →
        resolvedDelimiter env = some d →
        env.headers.find? (fun h => nameAliases.contains (pyLower h)) = none →
        moodle_main env = .noNameColumn env.headers) ∧
    (moodle_main env).isSoft = true := by
  refine ⟨?_, ?_, ?_, rfl⟩
  · intro hmiss
    unfold moodle_main
    rcases hmiss with hs | hc
    · rw [hs]
      rfl
    · rw [hc]
      simp
  · intro hs hc hres
    have hm : moodle_main env =
        .criticalError "Could not determine delimiter" := by
      unfold moodle_main
      rw [hs, hc, hres]
      rfl
    exact ⟨hm, by rw [hm]; rfl⟩
  · intro d hs hc hres hfind
    unfold moodle_main
    rw [hs, hc, hres, hfind]
    rfl

/-- Witness for C7 (amended) at three concrete environments, one per
failure mode. -/
theorem c7_soft_failure_modes_witness :
    moodle_main ⟨false, true, none, none, [], [], [], fun _ => 0⟩ =
      .missingPath "source" "csv" ∧
    (moodle_main sniffFailEnv =
        .criticalError "Could not determine delimiter" ∧
      (moodle_main sniffFailEnv).reportsHeaders = false) ∧
    moodle_main ⟨true, true, some ";", none, ["col_x"], [], [], fun _ => 0⟩ =
      .noNameColumn ["col_x"] :=
  ⟨(c7_soft_failure_modes ⟨false, true, none, none, [], [], [],
      fun _ => 0⟩).1 (Or.inl rfl),
   (c7_soft_failure_modes sniffFailEnv).2.1 rfl rfl rfl,
   (c7_soft_failure_modes ⟨true, true, some ";", none, ["col_x"], [], [],
      fun _ => 0⟩).2.2.1 ";" rfl rfl rfl rfl⟩

end GradingTools
